import Mathlib

/-!
Verification of the multi-strategy extraction core of the
clinical-study-extraction-app repository, as a shallow embedding in Lean 4.

The embedded functions follow the Python source under `backend/app/api/`:
* `UnifiedExtractor.extract_tables` / `extract_figures` (unified_extraction.py)
* `OlmOCRExtractor.parse_html_tables` row handling and `extract_via_api`
  retry loop (olmocr_extraction.py)
* `PyMuPDFTableExtractor._convert_to_markdown` (pymupdf_table_extraction.py)
* `_calculate_table_confidence` (enhanced.py)
* `ImprovedFigureExtractor._cluster_rectangles`, `_rect_distance`, and the
  caption step of `_detect_figure_regions_by_image_clusters`
  (improved_figure_extraction.py)

Python floats are modelled by `ℚ`; the float comparison
`_rect_distance(a, b) < t` (a real square root against a non-negative
threshold) is modelled by comparing the squared distance with `t ^ 2`.
Fallible code is modelled with `Option` / `Except`.
-/

namespace ClinicalExtraction

/-! ### Orchestrator (`UnifiedExtractor.extract_tables` / `extract_figures`)

A backend invocation either raises (`Except.error` carrying `str(e)`) or
returns a candidate list.  `extract_tables` and `extract_figures` are the
same loop, differing only in the payload type and the word used in the
final error message, so the embedding is generic in both. -/

/-- The result dictionary built by `UnifiedExtractor.extract_tables` /
`extract_figures`: keys `success`, `tables`/`figures` (here `candidates`),
`method_used`, `methods_tried`, `errors`, and the `table_count` /
`figure_count` key added on success. -/
structure ExtractResult (α : Type) where
  success : Bool
  candidates : List α
  method_used : Option String
  methods_tried : List String
  errors : List String
  count : Option Nat
deriving Repr, DecidableEq

/-- The initial `results` dictionary of `extract_tables` (lines 63-69). -/
def initResult {α : Type} : ExtractResult α :=
  { success := false, candidates := [], method_used := none
    methods_tried := [], errors := [], count := none }

/-- The `for method_name, extract_func in methods_to_try` loop of
`extract_tables` (lines 81-109): append the name to `methods_tried`,
invoke; commit on a non-empty list, recurse on an empty list, record the
message and recurse on an exception; after the loop append the
all-failed message.  `kind` is the word in that message
(`"tables"` / `"figures"`). -/
def extractLoop {α : Type} (kind : String) :
    List (String × Except String (List α)) → ExtractResult α → ExtractResult α
  | [], acc =>
      if acc.success then acc
      else { acc with
               errors := acc.errors ++
                 ["All extraction methods failed or found no " ++ kind] }
  | (name, outcome) :: rest, acc =>
      let acc1 := { acc with methods_tried := acc.methods_tried ++ [name] }
      match outcome with
      | Except.ok cands =>
          if cands.length > 0 then
            { acc1 with
                success := true, candidates := cands,
                method_used := some name, count := some cands.length }
          else extractLoop kind rest acc1
      | Except.error e =>
          extractLoop kind rest
            { acc1 with errors := acc1.errors ++ [name ++ " failed: " ++ e] }

/-- `UnifiedExtractor.extract_tables` / `extract_figures` (lines 49-171):
`methods` is the priority-ordered backend list together with the outcome
each backend produces on the given input, `methodReq` the optional
`method` argument.  Python's `if method:` is false for `None` and for the
empty string; a non-empty requested name restricts the list by a filter
and an unmatched name returns the `Unknown method` error. -/
def extract {α : Type} (kind : String)
    (methods : List (String × Except String (List α)))
    (methodReq : Option String) : ExtractResult α :=
  match methodReq with
  | some m =>
      if m = "" then extractLoop kind methods initResult
      else
        let toTry := methods.filter (fun p => p.1 = m)
        if toTry.isEmpty then
          { initResult with errors := ["Unknown method: " ++ m] }
        else extractLoop kind toTry initResult
  | none => extractLoop kind methods initResult

/-- A backend outcome that does not commit: a raised exception, or an
empty candidate list (`if tables and len(tables) > 0` is false). -/
def failsToCommit {α : Type} : Except String (List α) → Bool
  | Except.ok cands => cands.isEmpty
  | Except.error _ => true

/-- The names of a run of backends, in order. -/
def triedNames {α : Type} (ms : List (String × Except String (List α))) :
    List String :=
  ms.map Prod.fst

/-- The error messages recorded for a run of backends. -/
def failMessages {α : Type} (ms : List (String × Except String (List α))) :
    List String :=
  ms.filterMap (fun p =>
    match p.2 with
    | Except.error e => some (p.1 ++ " failed: " ++ e)
    | Except.ok _ => none)

/-- A candidate table as produced by the table backends: the datum the
orchestrator-level claims inspect is its cell grid. -/
structure TableCand where
  grid : List (List String)
deriving Repr, DecidableEq

lemma extractLoop_skip {α : Type} (kind : String)
    (pre : List (String × Except String (List α))) :
    ∀ (rest : List (String × Except String (List α))) (acc : ExtractResult α),
      (∀ p ∈ pre, failsToCommit p.2 = true) →
      extractLoop kind (pre ++ rest) acc =
        extractLoop kind rest
          { acc with methods_tried := acc.methods_tried ++ triedNames pre,
                     errors := acc.errors ++ failMessages pre } := by
  induction pre with
  | nil =>
      intro rest acc _
      simp [triedNames, failMessages]
  | cons hd tl ih =>
      intro rest acc hfail
      obtain ⟨name, outcome⟩ := hd
      have hhd : failsToCommit outcome = true :=
        hfail (name, outcome) (by simp)
      cases outcome with
      | ok cands =>
          have hnil : cands = [] := by
            simpa [failsToCommit, List.isEmpty_iff] using hhd
          subst hnil
          rw [List.cons_append, extractLoop]
          simp only [List.length_nil, gt_iff_lt, Nat.lt_irrefl, if_false]
          rw [ih rest _ (fun p hp => hfail p (by simp [hp]))]
          simp [triedNames, failMessages]
      | error e =>
          rw [List.cons_append, extractLoop]
          rw [ih rest _ (fun p hp => hfail p (by simp [hp]))]
          simp [triedNames, failMessages]

lemma extractLoop_commit {α : Type} (kind name : String)
    (cands : List α) (rest : List (String × Except String (List α)))
    (acc : ExtractResult α) (h : cands ≠ []) :
    extractLoop kind ((name, Except.ok cands) :: rest) acc =
      { acc with
          methods_tried := acc.methods_tried ++ [name],
          success := true, candidates := cands,
          method_used := some name, count := some cands.length } := by
  rw [extractLoop]
  have : cands.length > 0 := List.length_pos.mpr h
  simp [this]

/-- C2: if every backend before `A` fails to commit (raises or returns an
empty list) and `A` returns a non-empty candidate list, the orchestrator
commits to `A`: `method_used = A`, the candidates are `A`'s, and
`methods_tried` is exactly the backends up to and including `A` in
priority order — no later backend is invoked. -/
theorem orchestrator_first_success {α : Type} (kind aName : String)
    (ts : List α) (pre post : List (String × Except String (List α)))
    (hpre : ∀ p ∈ pre, failsToCommit p.2 = true) (hts : ts ≠ []) :
    (extract kind (pre ++ (aName, Except.ok ts) :: post) none).success = true ∧
    (extract kind (pre ++ (aName, Except.ok ts) :: post) none).method_used =
      some aName ∧
    (extract kind (pre ++ (aName, Except.ok ts) :: post) none).candidates = ts ∧
    (extract kind (pre ++ (aName, Except.ok ts) :: post) none).methods_tried =
      triedNames pre ++ [aName] := by
  have hskip := extractLoop_skip kind pre ((aName, Except.ok ts) :: post)
    (initResult (α := α)) hpre
  have hcommit := extractLoop_commit kind aName ts post
    { initResult (α := α) with
        methods_tried := (initResult (α := α)).methods_tried ++ triedNames pre,
        errors := (initResult (α := α)).errors ++ failMessages pre } hts
  simp only [extract, hskip, hcommit]
  simp [initResult]

/-- C2 witness: with `camelot` raising and `pymupdf` returning an empty
list before a committing `tabula`, the orchestrator commits to `tabula`
with `methods_tried = [camelot, pymupdf, tabula]`. -/
theorem orchestrator_first_success_witness :
    (extract "tables"
        ([("camelot", Except.error "boom"),
          ("pymupdf", Except.ok ([] : List TableCand)),
          ("tabula", Except.ok [TableCand.mk [["x"]]])]) none).success = true ∧
    (extract "tables"
        ([("camelot", Except.error "boom"),
          ("pymupdf", Except.ok ([] : List TableCand)),
          ("tabula", Except.ok [TableCand.mk [["x"]]])]) none).method_used =
      some "tabula" ∧
    (extract "tables"
        ([("camelot", Except.error "boom"),
          ("pymupdf", Except.ok ([] : List TableCand)),
          ("tabula", Except.ok [TableCand.mk [["x"]]])]) none).candidates =
      [TableCand.mk [["x"]]] ∧
    (extract "tables"
        ([("camelot", Except.error "boom"),
          ("pymupdf", Except.ok ([] : List TableCand)),
          ("tabula", Except.ok [TableCand.mk [["x"]]])]) none).methods_tried =
      triedNames [("camelot", Except.error "boom"),
                  ("pymupdf", Except.ok ([] : List TableCand))] ++ ["tabula"] :=
  orchestrator_first_success "tables" "tabula" [TableCand.mk [["x"]]]
    [("camelot", Except.error "boom"),
     ("pymupdf", Except.ok ([] : List TableCand))] []
    (by decide) (by simp)

/-- C5 counterexample: a backend returning one candidate whose grid has
0 rows passes the `if tables and len(tables) > 0` test, so the
orchestrator commits to it instead of failing over — the claim that such
a result is treated like a backend error is false on the code. -/
theorem empty_grid_commits_counterexample :
    extract "tables" [("pymupdf", Except.ok [TableCand.mk []])] none =
      { success := true, candidates := [TableCand.mk []],
        method_used := some "pymupdf", methods_tried := ["pymupdf"],
        errors := [], count := some 1 } ∧
    (TableCand.mk []).grid.length = 0 := by
  constructor
  · rfl
  · rfl

/-- C5 amended: the orchestrator never inspects candidate grids.  It
fails over exactly when the returned candidate *list* is empty — an
empty list behaves like a raised exception except that no message is
appended to `errors` — and any non-empty candidate list commits, even
when every candidate's grid has 0 rows. -/
theorem orchestrator_ignores_grids {α : Type} (kind name : String)
    (rest : List (String × Except String (List α))) (acc : ExtractResult α)
    (cands : List α) (hcands : cands ≠ []) :
    extractLoop kind ((name, Except.ok ([] : List α)) :: rest) acc =
      extractLoop kind rest
        { acc with methods_tried := acc.methods_tried ++ [name] } ∧
    extractLoop kind ((name, Except.ok cands) :: rest) acc =
      { acc with
          methods_tried := acc.methods_tried ++ [name],
          success := true, candidates := cands,
          method_used := some name, count := some cands.length } := by
  constructor
  · rw [extractLoop]
    simp
  · exact extractLoop_commit kind name cands rest acc hcands

/-- C5 amended witness: instantiated with a backend returning a single
zero-row candidate after a backend returning the empty list. -/
theorem orchestrator_ignores_grids_witness :
    extractLoop "tables"
        [("camelot", Except.ok ([] : List TableCand)),
         ("pymupdf", Except.ok [TableCand.mk []])]
        (initResult : ExtractResult TableCand) =
      extractLoop "tables" [("pymupdf", Except.ok [TableCand.mk []])]
        { success := false, candidates := [], method_used := none,
          methods_tried := ["camelot"], errors := [], count := none } ∧
    extractLoop "tables"
        [("camelot", Except.ok [TableCand.mk []]),
         ("pymupdf", Except.ok [TableCand.mk []])]
        (initResult : ExtractResult TableCand) =
      { success := true, candidates := [TableCand.mk []],
        method_used := some "camelot", methods_tried := ["camelot"],
        errors := [], count := some 1 } := by
  have h := orchestrator_ignores_grids (α := TableCand) "tables" "camelot"
    [("pymupdf", Except.ok [TableCand.mk []])] initResult
    [TableCand.mk []] (by simp)
  exact ⟨h.1, h.2⟩

/-- C6: a raised backend exception is recorded in `errors` and the loop
continues (first conjunct); when every backend fails to commit the
orchestrator returns `success = false` with the full `methods_tried`
trail, the per-backend error messages, and the final all-failed message —
the loop is never aborted and the function itself returns a plain result
rather than raising. -/
theorem orchestrator_error_accumulation {α : Type} (kind : String)
    (methods : List (String × Except String (List α)))
    (hall : ∀ p ∈ methods, failsToCommit p.2 = true) :
    (∀ (name e : String) (rest : List (String × Except String (List α)))
       (acc : ExtractResult α),
       extractLoop kind ((name, Except.error e) :: rest) acc =
         extractLoop kind rest
           { acc with
               methods_tried := acc.methods_tried ++ [name],
               errors := acc.errors ++ [name ++ " failed: " ++ e] }) ∧
    extract kind methods none =
      { success := false, candidates := [], method_used := none,
        methods_tried := triedNames methods,
        errors := failMessages methods ++
          ["All extraction methods failed or found no " ++ kind],
        count := none } := by
  constructor
  · intro name e rest acc
    rw [extractLoop]
  · have hskip := extractLoop_skip kind methods [] (initResult (α := α)) hall
    simp only [List.append_nil] at hskip
    simp only [extract, hskip, extractLoop]
    simp [initResult]

/-- C6 witness: two backends, one raising and one returning an empty
list; the result records both attempts, the one error message, and the
final all-failed message. -/
theorem orchestrator_error_accumulation_witness :
    extractLoop "tables" [("pymupdf", Except.error "no text layer")]
        (initResult : ExtractResult TableCand) =
      extractLoop "tables" []
        { success := false, candidates := [], method_used := none,
          methods_tried := ["pymupdf"],
          errors := ["pymupdf failed: no text layer"], count := none } ∧
    extract "tables"
        [("pymupdf", Except.error "no text layer"),
         ("camelot", Except.ok ([] : List TableCand))] none =
      { success := false, candidates := [], method_used := none,
        methods_tried := triedNames
          [("pymupdf", Except.error "no text layer"),
           ("camelot", Except.ok ([] : List TableCand))],
        errors := failMessages
            [("pymupdf", Except.error "no text layer"),
             ("camelot", Except.ok ([] : List TableCand))] ++
          ["All extraction methods failed or found no tables"],
        count := none } := by
  have h := orchestrator_error_accumulation "tables"
    [("pymupdf", Except.error "no text layer"),
     ("camelot", Except.ok ([] : List TableCand))] (by decide)
  exact ⟨h.1 "pymupdf" "no text layer" [] initResult, h.2⟩

lemma extractLoop_shape {α : Type} (kind : String) :
    ∀ (ms : List (String × Except String (List α))) (acc : ExtractResult α),
      acc.success = false → acc.candidates = [] → acc.method_used = none →
      ((extractLoop kind ms acc).success = true ↔
        (extractLoop kind ms acc).candidates ≠ []) ∧
      ((extractLoop kind ms acc).success = true ↔
        (extractLoop kind ms acc).method_used ≠ none) ∧
      ∃ t, (extractLoop kind ms acc).methods_tried =
             acc.methods_tried ++ t ∧
           ∃ r, t ++ r = triedNames ms := by
  intro ms
  induction ms with
  | nil =>
      intro acc hsucc hcands hmeth
      rw [extractLoop]
      simp [hsucc, hcands, hmeth, triedNames]
  | cons hd tl ih =>
      intro acc hsucc hcands hmeth
      obtain ⟨name, outcome⟩ := hd
      cases outcome with
      | ok cands =>
          by_cases hlen : cands.length > 0
          · rw [extractLoop]
            simp only [hlen, if_true]
            refine ⟨by simpa using List.length_pos.mp hlen, by simp, ?_⟩
            exact ⟨[name], by simp, triedNames tl, by simp [triedNames]⟩
          · rw [extractLoop]
            simp only [hlen, if_false]
            obtain ⟨h1, h2, t, ht, r, hr⟩ :=
              ih { acc with methods_tried := acc.methods_tried ++ [name] }
                hsucc hcands hmeth
            refine ⟨h1, h2, name :: t, ?_, r, ?_⟩
            · simp [ht]
            · simpa [triedNames] using hr
      | error e =>
          rw [extractLoop]
          obtain ⟨h1, h2, t, ht, r, hr⟩ :=
            ih { acc with
                   methods_tried := acc.methods_tried ++ [name],
                   errors := acc.errors ++ [name ++ " failed: " ++ e] }
              hsucc hcands hmeth
          refine ⟨h1, h2, name :: t, ?_, r, ?_⟩
          · simp [ht]
          · simpa [triedNames] using hr

lemma nodup_filter_single (l : List String) (m : String) (h : l.Nodup) :
    l.filter (fun n => n = m) = [] ∨ l.filter (fun n => n = m) = [m] := by
  induction l with
  | nil => simp
  | cons hd tl ih =>
      obtain ⟨hmem, htl⟩ := List.nodup_cons.mp h
      by_cases hhd : hd = m
      · subst hhd
        have htail : tl.filter (fun n => n = hd) = [] := by
          rw [List.filter_eq_nil_iff]
          intro a ha
          simp only [decide_eq_true_eq]
          intro hahd
          exact hmem (hahd ▸ ha)
        right
        simp [List.filter_cons, htail]
      · rcases ih htl with h1 | h1 <;>
          simp [List.filter_cons, hhd, h1]

lemma triedNames_filter {α : Type}
    (methods : List (String × Except String (List α))) (m : String) :
    triedNames (methods.filter (fun p => p.1 = m)) =
      (triedNames methods).filter (fun n => n = m) := by
  unfold triedNames
  induction methods with
  | nil => simp
  | cons hd tl ih =>
      by_cases hhd : hd.1 = m <;>
        simp [List.filter_cons, hhd, ih]

lemma filter_names_eq {α : Type}
    (methods : List (String × Except String (List α))) (m : String)
    (hnodup : (triedNames methods).Nodup) :
    triedNames (methods.filter (fun p => p.1 = m)) = [] ∨
    triedNames (methods.filter (fun p => p.1 = m)) = [m] := by
  rw [triedNames_filter]
  exact nodup_filter_single _ m hnodup

lemma extract_none_eq {α : Type} (kind : String)
    (methods : List (String × Except String (List α))) :
    extract kind methods none = extractLoop kind methods initResult := rfl

lemma extract_blank_eq {α : Type} (kind : String)
    (methods : List (String × Except String (List α))) :
    extract kind methods (some "") =
      extractLoop kind methods initResult := by
  simp [extract]

lemma extract_known_eq {α : Type} (kind : String)
    (methods : List (String × Except String (List α))) (m : String)
    (hm : m ≠ "") (h : ¬(methods.filter (fun p => p.1 = m)).isEmpty) :
    extract kind methods (some m) =
      extractLoop kind (methods.filter (fun p => p.1 = m)) initResult := by
  simp [extract, hm, h]

lemma extract_unknown_eq {α : Type} (kind : String)
    (methods : List (String × Except String (List α))) (m : String)
    (hm : m ≠ "") (h : (methods.filter (fun p => p.1 = m)).isEmpty) :
    extract kind methods (some m) =
      { initResult with errors := ["Unknown method: " ++ m] } := by
  simp [extract, hm, h]

/-- C10: for every backend list with distinct names, every payload, and
every optional requested method, the orchestrator's result satisfies:
`success` is true iff the candidate list is non-empty, iff `method_used`
is non-null; and `methods_tried` is a prefix of the configured
priority-ordered name list, or (when a method was requested) of the
one-element list holding that requested name. -/
theorem orchestrator_result_invariant {α : Type} (kind : String)
    (methods : List (String × Except String (List α)))
    (methodReq : Option String)
    (hnodup : (triedNames methods).Nodup) :
    ((extract kind methods methodReq).success = true ↔
      (extract kind methods methodReq).candidates ≠ []) ∧
    ((extract kind methods methodReq).success = true ↔
      (extract kind methods methodReq).method_used ≠ none) ∧
    ((∃ t, (extract kind methods methodReq).methods_tried ++ t =
        triedNames methods) ∨
     (∃ m, methodReq = some m ∧
        ∃ t, (extract kind methods methodReq).methods_tried ++ t = [m])) := by
  have hinit : (initResult (α := α)).success = false ∧
      (initResult (α := α)).candidates = [] ∧
      (initResult (α := α)).method_used = none := by simp [initResult]
  match methodReq with
  | none =>
      obtain ⟨h1, h2, t, ht, r, hr⟩ :=
        extractLoop_shape kind methods initResult hinit.1 hinit.2.1 hinit.2.2
      rw [extract_none_eq]
      refine ⟨h1, h2, Or.inl ⟨r, ?_⟩⟩
      rw [ht]
      simp only [initResult, List.nil_append, List.append_assoc]
      exact hr
  | some m =>
      by_cases hm : m = ""
      · subst hm
        obtain ⟨h1, h2, t, ht, r, hr⟩ :=
          extractLoop_shape kind methods initResult hinit.1 hinit.2.1 hinit.2.2
        rw [extract_blank_eq]
        refine ⟨h1, h2, Or.inl ⟨r, ?_⟩⟩
        rw [ht]
        simp only [initResult, List.nil_append, List.append_assoc]
        exact hr
      · by_cases hempty : (methods.filter (fun p => p.1 = m)).isEmpty
        · rw [extract_unknown_eq kind methods m hm hempty]
          refine ⟨by simp [initResult], by simp [initResult], ?_⟩
          exact Or.inl ⟨triedNames methods, by simp [initResult]⟩
        · obtain ⟨h1, h2, t, ht, r, hr⟩ :=
            extractLoop_shape kind (methods.filter (fun p => p.1 = m))
              initResult hinit.1 hinit.2.1 hinit.2.2
          rw [extract_known_eq kind methods m hm hempty]
          refine ⟨h1, h2, Or.inr ⟨m, rfl, ?_⟩⟩
          rcases filter_names_eq methods m hnodup with hnil | hone
          · exfalso
            have hfilnil : methods.filter (fun p => p.1 = m) = [] :=
              List.map_eq_nil_iff.mp hnil
            simp [hfilnil] at hempty
          · refine ⟨r, ?_⟩
            rw [ht]
            rw [hone] at hr
            simp only [initResult, List.nil_append, List.append_assoc]
            exact hr

/-- C10 witness: the three-method table configuration with a requested
method `camelot` that returns one candidate. -/
theorem orchestrator_result_invariant_witness :
    ((extract "tables"
        [("pymupdf", Except.ok ([] : List TableCand)),
         ("camelot", Except.ok [TableCand.mk [["x"]]]),
         ("tabula", Except.error "java missing")]
        (some "camelot")).success = true ↔
      (extract "tables"
        [("pymupdf", Except.ok ([] : List TableCand)),
         ("camelot", Except.ok [TableCand.mk [["x"]]]),
         ("tabula", Except.error "java missing")]
        (some "camelot")).candidates ≠ []) ∧
    ((extract "tables"
        [("pymupdf", Except.ok ([] : List TableCand)),
         ("camelot", Except.ok [TableCand.mk [["x"]]]),
         ("tabula", Except.error "java missing")]
        (some "camelot")).success = true ↔
      (extract "tables"
        [("pymupdf", Except.ok ([] : List TableCand)),
         ("camelot", Except.ok [TableCand.mk [["x"]]]),
         ("tabula", Except.error "java missing")]
        (some "camelot")).method_used ≠ none) ∧
    ((∃ t, (extract "tables"
        [("pymupdf", Except.ok ([] : List TableCand)),
         ("camelot", Except.ok [TableCand.mk [["x"]]]),
         ("tabula", Except.error "java missing")]
        (some "camelot")).methods_tried ++ t =
        triedNames
          [("pymupdf", Except.ok ([] : List TableCand)),
           ("camelot", Except.ok [TableCand.mk [["x"]]]),
           ("tabula", Except.error "java missing")]) ∨
     (∃ m, (some "camelot" : Option String) = some m ∧
        ∃ t, (extract "tables"
          [("pymupdf", Except.ok ([] : List TableCand)),
           ("camelot", Except.ok [TableCand.mk [["x"]]]),
           ("tabula", Except.error "java missing")]
          (some "camelot")).methods_tried ++ t = [m])) :=
  orchestrator_result_invariant "tables"
    [("pymupdf", Except.ok ([] : List TableCand)),
     ("camelot", Except.ok [TableCand.mk [["x"]]]),
     ("tabula", Except.error "java missing")]
    (some "camelot") (by decide)

/-! ### Format Normalizer

`OlmOCRExtractor.parse_html_tables` (olmocr_extraction.py 211-289) turns
each `<tr>`'s cell list into a flat `row_data` list, handling `colspan`,
builds a `| `-joined markdown line per row, tracks the running maximum
cell count as `max_cols`, and inserts a `---` separator line after the
first row when more than one row exists.
`PyMuPDFTableExtractor._convert_to_markdown` (pymupdf_table_extraction.py
130-150) renders a raw grid with a separator sized by the header row and
pads data rows with `row + [""] * (len(header) - len(row))`. -/

/-- One HTML table cell as seen by `parse_html_tables`: its stripped text
and its `colspan` attribute (defaulted to 1 by the code). -/
structure HtmlCell where
  text : String
  colspan : Nat
deriving Repr, DecidableEq

/-- The `row_data` accumulation of `parse_html_tables` (lines 242-249):
each cell contributes its text followed by `colspan - 1` empty strings. -/
def rowData (cells : List HtmlCell) : List String :=
  cells.foldl
    (fun acc c => (acc ++ [c.text]) ++ List.replicate (c.colspan - 1) "") []

/-- The per-row loop of `parse_html_tables` (lines 238-252): rows whose
cell list is empty (`if cells:` false) contribute nothing, every other
row contributes its `row_data`. -/
def parseHtmlRowDatas (trs : List (List HtmlCell)) : List (List String) :=
  trs.filterMap (fun cells =>
    if cells.isEmpty then none else some (rowData cells))

/-- The `max_cols` accumulator of `parse_html_tables` (line 252). -/
def htmlMaxCols (trs : List (List HtmlCell)) : Nat :=
  (parseHtmlRowDatas trs).foldl (fun m rd => max m rd.length) 0

/-- `'| ' + ' | '.join(cells) + ' |'`, the markdown rendering of one row
used by both normalizer paths. -/
def mdRow (cells : List String) : String :=
  "| " ++ String.intercalate " | " cells ++ " |"

/-- The markdown line list of `parse_html_tables` after the separator
insertion (lines 251-260): a `---` row of width `max_cols` is inserted at
position 1 when more than one row exists. -/
def parseHtmlMarkdownRows (trs : List (List HtmlCell)) : List String :=
  let mrows := (parseHtmlRowDatas trs).map mdRow
  if mrows.length > 1 then
    mrows.take 1 ++ [mdRow (List.replicate (htmlMaxCols trs) "---")] ++
      mrows.drop 1
  else mrows

/-- `PyMuPDFTableExtractor._convert_to_markdown` at cell-list granularity
(lines 130-150): the header row, a `---` separator sized by the header,
then each data row padded with `len(header) - len(row)` empty cells
(Python's `[""] * n` is empty for negative `n`, matching truncated `Nat`
subtraction). -/
def convertRowsLists (t : List (List String)) : List (List String) :=
  match t with
  | [] => []
  | header :: rest =>
      header :: List.replicate header.length "---" ::
        rest.map (fun row =>
          row ++ List.replicate (header.length - row.length) "")

/-- `_convert_to_markdown`'s returned string: empty for an empty grid,
otherwise the newline join of the rendered rows (`str(cell) if cell else
""` is the identity on string cells). -/
def convertToMarkdown (t : List (List String)) : String :=
  if t.isEmpty then ""
  else String.intercalate "\n" ((convertRowsLists t).map mdRow)

lemma rowData_eq_flatMap (cells : List HtmlCell) :
    rowData cells =
      cells.flatMap (fun c => c.text :: List.replicate (c.colspan - 1) "") := by
  suffices h : ∀ (acc : List String),
      cells.foldl
        (fun a c => (a ++ [c.text]) ++ List.replicate (c.colspan - 1) "") acc =
        acc ++ cells.flatMap
          (fun c => c.text :: List.replicate (c.colspan - 1) "") by
    simpa [rowData] using h []
  induction cells with
  | nil => intro acc; simp
  | cons hd tl ih =>
      intro acc
      rw [List.foldl_cons, ih]
      simp [List.flatMap_cons, List.append_assoc]

/-- C8: a `colspan = N` cell contributes its text once followed by `N-1`
synthetic empty cells (first conjunct, for any cell in any row); and the
2×2 HTML table whose header cell has `colspan = 2` normalizes to a grid
with exactly 2 cells in every row, the spanned text in column 0 and an
empty string in column 1 of the header, `max_cols = 2`, and the expected
markdown lines. -/
theorem html_colspan_synthetic_cells :
    (∀ (pre post : List HtmlCell) (t : String) (n : Nat),
      rowData (pre ++ HtmlCell.mk t n :: post) =
        rowData pre ++ (t :: List.replicate (n - 1) "") ++ rowData post) ∧
    parseHtmlRowDatas
        [[HtmlCell.mk "Header" 2],
         [HtmlCell.mk "a" 1, HtmlCell.mk "b" 1]] =
      [["Header", ""], ["a", "b"]] ∧
    htmlMaxCols
        [[HtmlCell.mk "Header" 2],
         [HtmlCell.mk "a" 1, HtmlCell.mk "b" 1]] = 2 ∧
    (parseHtmlRowDatas
        [[HtmlCell.mk "Header" 2],
         [HtmlCell.mk "a" 1, HtmlCell.mk "b" 1]]).map List.length = [2, 2] ∧
    parseHtmlMarkdownRows
        [[HtmlCell.mk "Header" 2],
         [HtmlCell.mk "a" 1, HtmlCell.mk "b" 1]] =
      ["| Header |  |", "| --- | --- |", "| a | b |"] := by
  refine ⟨?_, by decide, by decide, by decide, by decide⟩
  intro pre post t n
  simp [rowData_eq_flatMap, List.flatMap_cons, List.flatMap_append]

/-- C1 counterexample: the normalizer does not right-pad ragged rows to
the widest row.  The HTML parser on a table whose second row is wider
than its first reports `cols = 2` yet emits the first row with a single
cell; and `_convert_to_markdown` on the same ragged grid emits the
data row with 2 cells while the header keeps 1 (`cols` would be 2 under
the claim), so rows of unequal length escape both paths. -/
theorem normalizer_no_pad_counterexample :
    parseHtmlRowDatas [[HtmlCell.mk "a" 1],
        [HtmlCell.mk "b" 1, HtmlCell.mk "c" 1]] = [["a"], ["b", "c"]] ∧
    htmlMaxCols [[HtmlCell.mk "a" 1],
        [HtmlCell.mk "b" 1, HtmlCell.mk "c" 1]] = 2 ∧
    (parseHtmlRowDatas [[HtmlCell.mk "a" 1],
        [HtmlCell.mk "b" 1, HtmlCell.mk "c" 1]]).map List.length = [1, 2] ∧
    convertRowsLists [["a"], ["b", "c"]] = [["a"], ["---"], ["b", "c"]] ∧
    (convertRowsLists [["a"], ["b", "c"]]).map List.length = [1, 1, 2] := by
  refine ⟨by decide, by decide, by decide, by decide, by decide⟩

/-- C1 amended: `parse_html_tables` computes `cols` as the maximum
`row_data` length but emits every row with its own cell count, unpadded;
`_convert_to_markdown` pads data rows up to the header row's length (not
the widest row's), so its output is rectangular exactly when no data row
is wider than the header: under that hypothesis every emitted row —
header, separator, and padded data rows — has exactly `len(header)`
cells. -/
theorem convert_to_markdown_pads_to_header (header : List String)
    (rest : List (List String))
    (hwide : ∀ row ∈ rest, row.length ≤ header.length) :
    ∀ rd ∈ convertRowsLists (header :: rest), rd.length = header.length := by
  intro rd hrd
  simp only [convertRowsLists, List.mem_cons] at hrd
  rcases hrd with rfl | hrd
  · rfl
  rcases hrd with rfl | hrd
  · simp
  obtain ⟨row, hrow, rfl⟩ := List.mem_map.mp hrd
  have hle := hwide row hrow
  simp [Nat.add_sub_cancel' hle]

/-- C1 amended witness: a grid whose header is the widest row, with a
short second row padded up to the header length. -/
theorem convert_to_markdown_pads_to_header_witness :
    ["x", ""] ∈ convertRowsLists [["h1", "h2"], ["x"]] ∧
    (["x", ""] : List String).length = 2 :=
  ⟨by decide,
    convert_to_markdown_pads_to_header ["h1", "h2"] [["x"]] (by decide)
      ["x", ""] (by decide)⟩

/-! ### Confidence Scorer (`_calculate_table_confidence`, enhanced.py 202-221)

Floats are modelled by `ℚ`; Python's `ZeroDivisionError` (raised when the
first row is empty) is modelled by returning `none`. -/

/-- A bounding box tuple `(x0, y0, x1, y1)`. -/
structure BBox where
  x0 : ℚ
  y0 : ℚ
  x1 : ℚ
  y1 : ℚ
deriving Repr, DecidableEq

/-- `len(set(len(row) for row in table))`: the number of distinct row
lengths. -/
def distinctRowLengthCount (t : List (List String)) : Nat :=
  ((t.map List.length).dedup).length

/-- `sum(1 for row in table for cell in row if cell)`: the number of
truthy (non-empty) cells. -/
def nonEmptyCellCount : List (List String) → Nat
  | [] => 0
  | row :: rest =>
      row.countP (fun c => decide (c ≠ "")) + nonEmptyCellCount rest

/-- `_calculate_table_confidence(table, bbox)`: `0.0` for an empty table;
otherwise base `0.5`, `+0.2` when a bbox is present, `+0.15` when all
rows share one length, `+ ratio * 0.15` where
`ratio = non_empty / (len(table) * len(table[0]))`, clamped by
`min(score, 1.0)`.  A grid whose first row is empty divides by zero
(`none`). -/
def calculateTableConfidence (table : List (List String))
    (bbox : Option BBox) : Option ℚ :=
  if table.isEmpty then some 0
  else
    let s0 : ℚ := 1/2
    let s1 : ℚ := if bbox.isSome then s0 + 1/5 else s0
    let s2 : ℚ := if distinctRowLengthCount table = 1 then s1 + 3/20 else s1
    let denom : ℚ := (table.length : ℚ) * ((table.headI).length : ℚ)
    if denom = 0 then none
    else some (min (s2 + ((nonEmptyCellCount table : ℚ) / denom) * (3/20)) 1)

/-- The score the spec's words describe (for comparison with the code):
base `0.5`, `+0.2` for a bbox, `+0.15` for uniform row lengths, plus
`0.15` times the fraction of non-empty cells among all cells of the
grid, clamped at `1.0`. -/
def specConfidence (table : List (List String)) (bbox : Option BBox) : ℚ :=
  let base : ℚ := 1/2
  let b1 : ℚ := if bbox.isSome then 1/5 else 0
  let b2 : ℚ := if distinctRowLengthCount table = 1 then 3/20 else 0
  let total := (table.map List.length).sum
  let frac : ℚ :=
    if total = 0 then 0 else (nonEmptyCellCount table : ℚ) / total
  min (base + b1 + b2 + frac * (3/20)) 1

/-- C4 counterexample: on the ragged grid `[["a"], ["b","c"]]` with no
bbox the code divides the 3 non-empty cells by
`len(table) * len(table[0]) = 2`, giving `min(0.5 + 1.5*0.15, 1) =
0.725`, while the claim's formula (`0.15` times the fraction of
non-empty cells, here `3/3 = 1`) gives `0.65`; the code's score is not
the claimed value. -/
theorem confidence_formula_counterexample :
    calculateTableConfidence [["a"], ["b", "c"]] none = some (29/40) ∧
    specConfidence [["a"], ["b", "c"]] none = 13/20 ∧
    (29/40 : ℚ) ≠ 13/20 := by
  have hd : distinctRowLengthCount [["a"], ["b", "c"]] = 2 := by
    simp [distinctRowLengthCount]
  have hc : nonEmptyCellCount [["a"], ["b", "c"]] = 3 := by
    simp [nonEmptyCellCount]
  refine ⟨?_, ?_, by norm_num⟩
  · unfold calculateTableConfidence
    norm_num [hd, hc, List.headI]
  · unfold specConfidence
    norm_num [hd, hc]

lemma distinctRowLengthCount_one {t : List (List String)}
    (h : distinctRowLengthCount t = 1) :
    ∀ row ∈ t, row.length = (t.headI).length := by
  unfold distinctRowLengthCount at h
  obtain ⟨k, hk⟩ := List.length_eq_one.mp h
  have hmem : ∀ n ∈ t.map List.length, n = k := by
    intro n hn
    have : n ∈ (t.map List.length).dedup := List.mem_dedup.mpr hn
    rw [hk] at this
    simpa using this
  intro row hrow
  have hrl : row.length = k := hmem _ (List.mem_map_of_mem _ hrow)
  cases t with
  | nil => cases hrow
  | cons hd tl =>
      have hhd : hd.length = k := hmem _ (by simp)
      simp [List.headI, hrl, hhd]

lemma nonEmptyCellCount_full {t : List (List String)}
    (hfull : ∀ row ∈ t, ∀ c ∈ row, c ≠ "") :
    nonEmptyCellCount t = (t.map List.length).sum := by
  induction t with
  | nil => simp [nonEmptyCellCount]
  | cons hd tl ih =>
      have hhd : hd.countP (fun c => decide (c ≠ "")) = hd.length := by
        rw [List.countP_eq_length]
        intro c hc
        simpa using hfull hd (by simp) c hc
      have htl := ih (fun row hrow => hfull row (by simp [hrow]))
      simp only [nonEmptyCellCount, hhd, htl, List.map_cons, List.sum_cons]

lemma sum_map_length_const {t : List (List String)} {k : Nat}
    (h : ∀ row ∈ t, row.length = k) :
    (t.map List.length).sum = t.length * k := by
  induction t with
  | nil => simp
  | cons hd tl ih =>
      have hhd : hd.length = k := h hd (by simp)
      rw [List.map_cons, List.sum_cons, hhd,
        ih (fun row hrow => h row (by simp [hrow]))]
      simp only [List.length_cons]
      ring

lemma nonEmptyCellCount_nonneg (t : List (List String)) :
    (0 : ℚ) ≤ (nonEmptyCellCount t : ℚ) := by positivity

/-- C4 amended: for every grid with at least one row whose first row is
non-empty, the scorer returns
`min(0.5 + 0.2·[bbox] + 0.15·[uniform rows] +
0.15·nonEmpty/(rows·len(first row)), 1.0)`, a value in `[0, 1]`, and a
grid with a bounding box, uniform row lengths, and all cells non-empty
scores exactly `1.0`.  (The denominator is `rows · len(first row)`, not
the total cell count, so ragged grids are mis-weighted; the empty grid
returns `0.0` and a grid whose first row is empty raises
`ZeroDivisionError`, modelled as `none`.) -/
theorem confidence_range_and_perfect_score (table : List (List String))
    (bbox : Option BBox) (hne : table ≠ [])
    (hhead : (table.headI).length ≠ 0) :
    ∃ q, calculateTableConfidence table bbox = some q ∧
      0 ≤ q ∧ q ≤ 1 ∧
      (bbox.isSome = true → distinctRowLengthCount table = 1 →
        (∀ row ∈ table, ∀ c ∈ row, c ≠ "") → q = 1) := by
  have hlen : (0 : ℚ) < (table.length : ℚ) := by
    have : 0 < table.length := List.length_pos.mpr hne
    exact_mod_cast this
  have hhd : (0 : ℚ) < ((table.headI).length : ℚ) := by
    have : 0 < (table.headI).length := Nat.pos_of_ne_zero hhead
    exact_mod_cast this
  have hdenom : (0 : ℚ) < (table.length : ℚ) * ((table.headI).length : ℚ) :=
    mul_pos hlen hhd
  have hdenom' : ((table.length : ℚ) * ((table.headI).length : ℚ)) ≠ 0 :=
    ne_of_gt hdenom
  have hempty : ¬table.isEmpty := by simpa [List.isEmpty_iff] using hne
  unfold calculateTableConfidence
  simp only [hempty, Bool.false_eq_true, if_false, hdenom', if_false]
  set s1 : ℚ := if bbox.isSome then (1/2 : ℚ) + 1/5 else 1/2 with hs1
  set s2 : ℚ :=
    if distinctRowLengthCount table = 1 then s1 + 3/20 else s1 with hs2
  set r : ℚ := (nonEmptyCellCount table : ℚ) /
    ((table.length : ℚ) * ((table.headI).length : ℚ)) with hr
  refine ⟨min (s2 + r * (3/20)) 1, rfl, ?_, min_le_right _ _, ?_⟩
  · have hs1pos : (0 : ℚ) ≤ s1 := by
      rw [hs1]; split <;> norm_num
    have hs2pos : (0 : ℚ) ≤ s2 := by
      rw [hs2]; split <;> linarith
    have hrpos : (0 : ℚ) ≤ r := by
      rw [hr]
      exact div_nonneg (nonEmptyCellCount_nonneg table) (le_of_lt hdenom)
    have : (0 : ℚ) ≤ s2 + r * (3/20) := by linarith
    exact le_min this (by norm_num)
  · intro hbb huni hfull
    have hs1v : s1 = 1/2 + 1/5 := by rw [hs1, if_pos hbb]
    have hs2v : s2 = s1 + 3/20 := by rw [hs2, if_pos huni]
    have hcount : (nonEmptyCellCount table : ℚ) =
        (table.length : ℚ) * ((table.headI).length : ℚ) := by
      rw [nonEmptyCellCount_full hfull,
        sum_map_length_const (distinctRowLengthCount_one huni)]
      push_cast
      ring
    have hrv : r = 1 := by
      rw [hr, hcount, div_self hdenom']
    rw [hs2v, hs1v, hrv]
    norm_num

/-- C4 amended witness: a 2×2 grid with a bounding box, uniform rows and
all cells non-empty, scoring exactly 1. -/
theorem confidence_range_witness :
    ∃ q, calculateTableConfidence [["x", "y"], ["z", "w"]]
        (some (BBox.mk 0 0 1 1)) = some q ∧
      0 ≤ q ∧ q ≤ 1 ∧
      ((some (BBox.mk 0 0 1 1)).isSome = true →
        distinctRowLengthCount [["x", "y"], ["z", "w"]] = 1 →
        (∀ row ∈ [["x", "y"], ["z", "w"]], ∀ c ∈ row, c ≠ "") → q = 1) :=
  confidence_range_and_perfect_score [["x", "y"], ["z", "w"]]
    (some (BBox.mk 0 0 1 1)) (by decide) (by decide)

/-! ### Region Detector: rectangle clustering
(`ImprovedFigureExtractor._cluster_rectangles` / `_rect_distance`,
improved_figure_extraction.py 188-228)

Coordinates are modelled by `ℚ`; the float comparison
`_rect_distance(r1, r2) < threshold` — a square root compared against a
non-negative threshold — is modelled as squared distance `< threshold²`.
The Python loops over list indices with a `used` index set; the
embedding carries the same enumerated list and `used` list. -/

/-- A `fitz.Rect`. -/
structure Rect where
  x0 : ℚ
  y0 : ℚ
  x1 : ℚ
  y1 : ℚ
deriving Repr, DecidableEq

/-- The squared Euclidean distance between the centers of two
rectangles, as computed in `_rect_distance` before the square root. -/
def rectDistSq (r1 r2 : Rect) : ℚ :=
  ((r1.x0 + r1.x1) / 2 - (r2.x0 + r2.x1) / 2) ^ 2 +
    ((r1.y0 + r1.y1) / 2 - (r2.y0 + r2.y1) / 2) ^ 2

/-- `_rect_distance(r1, r2) < t` for a non-negative threshold `t`. -/
def rectClose (r1 r2 : Rect) (t : ℚ) : Bool :=
  decide (rectDistSq r1 r2 < t ^ 2)

/-- The inner `for j, rect2 in enumerate(rects)` loop of
`_cluster_rectangles` (lines 205-214): skip indices already used;
append `rect2` to the growing cluster (and `j` to `used`) as soon as it
is close to some rectangle already in the cluster. -/
def clusterInner (t : ℚ) :
    List (Nat × Rect) → List Rect → List Nat → List Rect × List Nat
  | [], cluster, used => (cluster, used)
  | (j, r2) :: rest, cluster, used =>
      if j ∈ used then clusterInner t rest cluster used
      else if cluster.any (fun cr => rectClose cr r2 t) then
        clusterInner t rest (cluster ++ [r2]) (used ++ [j])
      else clusterInner t rest cluster used

/-- The outer `for i, rect1 in enumerate(rects)` loop of
`_cluster_rectangles` (lines 198-216): seed a new cluster with each
not-yet-used rectangle, grow it with one pass of the inner loop, and
collect the clusters. -/
def clusterOuter (t : ℚ) (all : List (Nat × Rect)) :
    List (Nat × Rect) → List Nat → List (List Rect) × List Nat
  | [], used => ([], used)
  | (i, r1) :: rest, used =>
      if i ∈ used then clusterOuter t all rest used
      else
        let grown := clusterInner t all [r1] (used ++ [i])
        let others := clusterOuter t all rest grown.2
        (grown.1 :: others.1, others.2)

/-- `_cluster_rectangles(rects, distance_threshold)` (lines 188-218). -/
def clusterRects (rects : List Rect) (t : ℚ) : List (List Rect) :=
  if rects.isEmpty then []
  else (clusterOuter t rects.enum rects.enum []).1

/-- Three collinear degenerate rectangles: `rectA`–`rectB` and
`rectB`–`rectC` are within the default threshold 50 of each other but
`rectA`–`rectC` are not, so as connected components all three belong to
one cluster. -/
def rectA : Rect := Rect.mk 0 0 0 0

/-- Center (40, 0): close to both `rectA` and `rectC`. -/
def rectB : Rect := Rect.mk 40 0 40 0

/-- Center (80, 0): close to `rectB` only. -/
def rectC : Rect := Rect.mk 80 0 80 0

/-- C3 counterexample: with the chain `rectA — rectB — rectC` (each
adjacent pair closer than the threshold 50, the outer pair not), the
input order `[A, C, B]` produces the partition `[[A, B], [C]]` while the
permutation `[A, B, C]` produces `[[A, B, C]]`: the code's single greedy
pass is not connected-component grouping (the chain through `B` fails to
absorb `C` when `C` is scanned before `B` joins), and permuting the
input regroups the rectangles. -/
theorem cluster_greedy_counterexample :
    rectClose rectA rectB 50 = true ∧
    rectClose rectB rectC 50 = true ∧
    rectClose rectA rectC 50 = false ∧
    clusterRects [rectA, rectC, rectB] 50 = [[rectA, rectB], [rectC]] ∧
    clusterRects [rectA, rectB, rectC] 50 = [[rectA, rectB, rectC]] := by
  refine ⟨?_, ?_, ?_, ?_, ?_⟩ <;>
    norm_num [rectClose, rectDistSq, rectA, rectB, rectC, clusterRects,
      clusterOuter, clusterInner, List.enum]

/-- A cluster is chain-connected: it is built from a single seed by
appending rectangles each close to some earlier member. -/
inductive Linked (t : ℚ) : List Rect → Prop
  | single (r : Rect) : Linked t [r]
  | grow (c : List Rect) (r : Rect) (hc : Linked t c)
      (hclose : ∃ cr ∈ c, rectClose cr r t = true) : Linked t (c ++ [r])

lemma clusterInner_linked (t : ℚ) :
    ∀ (js : List (Nat × Rect)) (cluster : List Rect) (used : List Nat),
      Linked t cluster → Linked t (clusterInner t js cluster used).1 := by
  intro js
  induction js with
  | nil => intro cluster used h; exact h
  | cons hd tl ih =>
      intro cluster used h
      obtain ⟨j, r2⟩ := hd
      rw [clusterInner]
      by_cases hj : j ∈ used
      · simp only [hj, if_true]
        exact ih cluster used h
      · simp only [hj, if_false]
        by_cases hclose : cluster.any (fun cr => rectClose cr r2 t)
        · simp only [hclose, if_true]
          refine ih _ _ (Linked.grow cluster r2 h ?_)
          simpa using List.any_eq_true.mp hclose
        · simp only [hclose, if_false]
          exact ih cluster used h

lemma clusterOuter_linked (t : ℚ) (all : List (Nat × Rect)) :
    ∀ (rem : List (Nat × Rect)) (used : List Nat),
      ∀ c ∈ (clusterOuter t all rem used).1, Linked t c := by
  intro rem
  induction rem with
  | nil => intro used c hc; cases hc
  | cons hd tl ih =>
      intro used c hc
      obtain ⟨i, r1⟩ := hd
      rw [clusterOuter] at hc
      by_cases hi : i ∈ used
      · simp only [hi, if_true] at hc
        exact ih used c hc
      · simp only [hi, if_false, List.mem_cons] at hc
        rcases hc with rfl | hc
        · exact clusterInner_linked t all [r1] (used ++ [i])
            (Linked.single r1)
        · exact ih _ c hc

/-- C3 amended: the clustering is a single greedy pass, not
connected-component grouping, and the partition depends on the input
order (see the counterexample); what does hold is the refinement
direction: every produced cluster is chain-connected under the
center-distance-below-threshold relation — it grows from one seed by
adding rectangles each close to an earlier member — so no cluster ever
mixes rectangles from different connected components. -/
theorem cluster_chain_connected (rects : List Rect) (t : ℚ)
    (c : List Rect) (hc : c ∈ clusterRects rects t) : Linked t c := by
  unfold clusterRects at hc
  by_cases hr : rects.isEmpty
  · simp [hr] at hc
  · simp only [hr, Bool.false_eq_true, if_false] at hc
    exact clusterOuter_linked t rects.enum rects.enum [] c hc

/-- C3 amended witness: the cluster `[rectA, rectB]` produced on input
`[A, C, B]` is chain-connected. -/
theorem cluster_chain_connected_witness :
    Linked 50 [rectA, rectB] :=
  cluster_chain_connected [rectA, rectC, rectB] 50 [rectA, rectB]
    (by norm_num [rectClose, rectDistSq, rectA, rectB, rectC, clusterRects,
      clusterOuter, clusterInner, List.enum])

/-! ### Region Detector: cluster captions
(`_detect_figure_regions_by_image_clusters`, improved_figure_extraction.py
130-186)

The page is modelled by its height and the `page.get_textbox` oracle.
For comparison, `isLikelyCaption` embeds the keyword-or-digit caption
filter that exists in this repository — in
`PyMuPDFFigureExtractor._extract_caption_near_image`
(pymupdf_figure_extraction.py 106-140), not in the cluster strategy. -/

/-- Python `str.strip()` on the character list: drop whitespace from
both ends. -/
def pyStrip (s : List Char) : List Char :=
  ((s.dropWhile Char.isWhitespace).reverse.dropWhile
    Char.isWhitespace).reverse

/-- Python `str.strip()` as a `String → String` map. -/
def pyStripStr (s : String) : String :=
  String.mk (pyStrip s.data)

/-- Python `str.startswith(pat)` on character lists. -/
def pyLeads : List Char → List Char → Bool
  | [], _ => true
  | _ :: _, [] => false
  | a :: as, b :: bs => a == b && pyLeads as bs

/-- A detected region: bounding box plus optional caption. -/
structure Region where
  bbox : Rect
  caption : Option String
deriving Repr, DecidableEq

/-- Python's `min` over a non-empty list (the `[]` case is unreachable:
clusters always hold their seed). -/
def minQ : List ℚ → ℚ
  | [] => 0
  | x :: xs => xs.foldl min x

/-- Python's `max` over a non-empty list. -/
def maxQ : List ℚ → ℚ
  | [] => 0
  | x :: xs => xs.foldl max x

/-- The caption search window below a cluster (line 170):
`fitz.Rect(x0, y1, x1, min(y1 + 100, page.rect.height))` in the
cluster's un-padded coordinates. -/
def captionWindow (cluster : List Rect) (pageHeight : ℚ) : Rect :=
  Rect.mk (minQ (cluster.map Rect.x0)) (maxQ (cluster.map Rect.y1))
    (maxQ (cluster.map Rect.x1))
    (min (maxQ (cluster.map Rect.y1) + 100) pageHeight)

/-- The per-cluster body of
`_detect_figure_regions_by_image_clusters` (lines 157-181): enclosing
box padded by 10, discarded unless the padded box is wider and taller
than 100; the text directly below is stripped and attached as the
caption whenever it is non-empty. -/
def regionOfCluster (pageHeight : ℚ) (textbox : Rect → String)
    (cluster : List Rect) : Option Region :=
  let x0 := minQ (cluster.map Rect.x0)
  let y0 := minQ (cluster.map Rect.y0)
  let x1 := maxQ (cluster.map Rect.x1)
  let y1 := maxQ (cluster.map Rect.y1)
  let bbox := Rect.mk (x0 - 10) (y0 - 10) (x1 + 10) (y1 + 10)
  if 100 < bbox.x1 - bbox.x0 ∧ 100 < bbox.y1 - bbox.y0 then
    let captionText := pyStripStr (textbox (captionWindow cluster pageHeight))
    some (Region.mk bbox (if captionText = "" then none else some captionText))
  else none

/-- The region list of the cluster-based strategy: one region per
sufficiently large cluster of the page's image rectangles. -/
def detectFigureRegionsByClusters (pageHeight : ℚ) (textbox : Rect → String)
    (rects : List Rect) : List Region :=
  (clusterRects rects 50).filterMap (regionOfCluster pageHeight textbox)

/-- The repository's caption plausibility filter
(`_extract_caption_near_image`, pymupdf_figure_extraction.py 129-134):
non-empty and starting with a figure/table keyword or holding a digit in
the first 20 characters.  The cluster strategy never calls it. -/
def isLikelyCaption (s : String) : Bool :=
  s ≠ "" &&
    (pyLeads "Figure".data s.data || pyLeads "Fig.".data s.data ||
      pyLeads "FIG".data s.data || pyLeads "Table".data s.data ||
      (s.data.take 20).any Char.isDigit)

/-- C7 counterexample: a single 200×200 image rectangle forms a cluster
whose padded box passes the size filter; with the text below it reading
`hello world` — no figure/table keyword, no digit — the cluster strategy
still attaches `hello world` as the region's caption, so text meeting
neither condition is accepted. -/
theorem cluster_caption_no_filter_counterexample :
    detectFigureRegionsByClusters 800 (fun _ => "hello world")
        [Rect.mk 0 0 200 200] =
      [Region.mk (Rect.mk (-10) (-10) 210 210) (some "hello world")] ∧
    isLikelyCaption "hello world" = false := by
  have hclust : clusterRects [Rect.mk 0 0 200 200] 50 =
      [[Rect.mk 0 0 200 200]] := by
    norm_num [clusterRects, clusterOuter, clusterInner, List.enum]
  have hreg : regionOfCluster 800 (fun _ => "hello world")
      [Rect.mk 0 0 200 200] =
      some (Region.mk (Rect.mk (-10) (-10) 210 210)
        (some "hello world")) := by
    unfold regionOfCluster
    norm_num [minQ, maxQ, captionWindow]
    decide
  constructor
  · rw [detectFigureRegionsByClusters, hclust]
    simp [List.filterMap_cons, hreg]
  · decide

/-- C7 amended: the cluster-based strategy performs no caption
validation: the text read in the fixed window below the cluster is
stripped and attached as the caption exactly when it is non-empty,
keyword or not, digit or not.  (The keyword-or-digit filter the claim
describes exists only in the separate direct-image extractor,
`_extract_caption_near_image`.) -/
theorem cluster_caption_is_raw_text (pageHeight : ℚ)
    (textbox : Rect → String) (cluster : List Rect) (reg : Region)
    (h : regionOfCluster pageHeight textbox cluster = some reg) :
    reg.caption =
      (if pyStripStr (textbox (captionWindow cluster pageHeight)) = ""
       then none
       else some (pyStripStr (textbox (captionWindow cluster pageHeight)))) := by
  unfold regionOfCluster at h
  by_cases hsize : 100 < maxQ (cluster.map Rect.x1) + 10 -
      (minQ (cluster.map Rect.x0) - 10) ∧
      100 < maxQ (cluster.map Rect.y1) + 10 -
      (minQ (cluster.map Rect.y0) - 10)
  · simp only [hsize, and_self, if_true, Option.some.injEq] at h
    rw [← h]
  · simp only [hsize, if_false] at h
    simp at h

/-- C7 amended witness: the `hello world` region from the
counterexample input has exactly the stripped window text as caption. -/
theorem cluster_caption_is_raw_text_witness :
    (Region.mk (Rect.mk (-10) (-10) 210 210)
        (some "hello world")).caption =
      (if pyStripStr ((fun (_ : Rect) => "hello world")
            (captionWindow [Rect.mk 0 0 200 200] 800)) = "" then none
       else some (pyStripStr ((fun (_ : Rect) => "hello world")
            (captionWindow [Rect.mk 0 0 200 200] 800)))) :=
  cluster_caption_is_raw_text 800 (fun _ => "hello world")
    [Rect.mk 0 0 200 200]
    (Region.mk (Rect.mk (-10) (-10) 210 210) (some "hello world"))
    (by
      unfold regionOfCluster
      norm_num [minQ, maxQ, captionWindow]
      decide)

/-! ### olmOCR API retry loop
(`OlmOCRExtractor.extract_via_api`, olmocr_extraction.py 150-209)

One API attempt either returns the markdown output or raises an
exception whose `str(e)` the code classifies by substring tests, in
order: timeout, rate limit, authentication, other.  The attempt
outcomes are supplied by an oracle indexed by the attempt number; the
`for attempt in range(self.max_retries + 1)` loop is the structural
recursion over that index list, and the `time.sleep` calls are logged
as a list of slept durations (in seconds). -/

/-- Python `pat in s` on character lists. -/
def pyHasSub (pat : List Char) : List Char → Bool
  | [] => pat.isEmpty
  | c :: rest => pyLeads pat (c :: rest) || pyHasSub pat rest

/-- Python `pat in s` on strings. -/
def hasSubstring (s pat : String) : Bool :=
  pyHasSub pat.data s.data

/-- Python `str.lower()`. -/
def pyLower (s : String) : String :=
  String.mk (s.data.map Char.toLower)

/-- `"timeout" in error_str.lower()` (line 192). -/
def isTimeoutErr (e : String) : Bool :=
  hasSubstring (pyLower e) "timeout"

/-- `"429" in error_str or "rate" in error_str.lower()` (line 196). -/
def isRateErr (e : String) : Bool :=
  hasSubstring e "429" || hasSubstring (pyLower e) "rate"

/-- `"401" in error_str or "authentication" in error_str.lower()`
(line 204). -/
def isAuthErr (e : String) : Bool :=
  hasSubstring e "401" || hasSubstring (pyLower e) "authentication"

/-- The retry loop of `extract_via_api` (lines 150-209) over the list of
remaining attempt indices: on success return the markdown; on a
timeout-classified error raise the terminal timeout message at the last
attempt, else sleep `2 ^ attempt` and retry; on a rate-classified error
sleep `2 ^ (attempt + 1)` and retry while attempts remain, else raise
the terminal rate-limit message; on an authentication-classified error
raise at once; otherwise re-raise at the last attempt or sleep
`2 ^ attempt` and retry.  `none` is Python's implicit fall-through
return, unreachable from a full index list. -/
def apiLoop (maxRetries : Nat) (oracle : Nat → Except String String) :
    List Nat → List Nat → Option (Except String String) × List Nat
  | [], sleeps => (none, sleeps)
  | attempt :: rest, sleeps =>
      match oracle attempt with
      | Except.ok md => (some (Except.ok md), sleeps)
      | Except.error e =>
          if isTimeoutErr e then
            if attempt = maxRetries then
              (some (Except.error ("olmOCR API timeout after " ++
                toString (maxRetries + 1) ++ " attempts")), sleeps)
            else apiLoop maxRetries oracle rest (sleeps ++ [2 ^ attempt])
          else if isRateErr e then
            if attempt < maxRetries then
              apiLoop maxRetries oracle rest (sleeps ++ [2 ^ (attempt + 1)])
            else (some (Except.error "olmOCR API rate limit exceeded"),
              sleeps)
          else if isAuthErr e then
            (some (Except.error
              "olmOCR API authentication failed - check API key"), sleeps)
          else if attempt = maxRetries then (some (Except.error e), sleeps)
          else apiLoop maxRetries oracle rest (sleeps ++ [2 ^ attempt])

/-- `extract_via_api`'s `for attempt in range(self.max_retries + 1)`
loop, with no sleeps performed yet. -/
def extractViaApi (maxRetries : Nat)
    (oracle : Nat → Except String String) :
    Option (Except String String) × List Nat :=
  apiLoop maxRetries oracle (List.range (maxRetries + 1)) []

/-- C9: when an attempt fails with an error classified as an
authentication error (it reaches the `401`/`authentication` branch:
it is not timeout- or rate-classified), the adapter raises the terminal
authentication failure at once: the result does not depend on the
remaining attempt indices (no further attempt is made), the sleep log is
returned unchanged (no backoff sleep), and the retry ceiling
`maxRetries` is irrelevant. -/
theorem auth_error_fails_immediately (maxRetries : Nat)
    (oracle : Nat → Except String String) (attempt : Nat)
    (rest sleeps : List Nat) (e : String)
    (herr : oracle attempt = Except.error e)
    (ht : isTimeoutErr e = false) (hr : isRateErr e = false)
    (ha : isAuthErr e = true) :
    apiLoop maxRetries oracle (attempt :: rest) sleeps =
      (some (Except.error
        "olmOCR API authentication failed - check API key"), sleeps) := by
  rw [apiLoop, herr]
  simp [ht, hr, ha]

/-- C9 witness: a `401 Unauthorized` failure on the very first attempt
with a full retry budget of 2 terminates at once with the terminal
authentication message and an empty sleep log. -/
theorem auth_error_fails_immediately_witness :
    apiLoop 2 (fun _ => Except.error "Error code: 401 - Unauthorized")
        [0, 1, 2] [] =
      (some (Except.error
        "olmOCR API authentication failed - check API key"), []) :=
  auth_error_fails_immediately 2
    (fun _ => Except.error "Error code: 401 - Unauthorized") 0 [1, 2] []
    "Error code: 401 - Unauthorized" rfl (by decide) (by decide) (by decide)

end ClinicalExtraction
